import Mathlib

/-!
Shallow embedding of the LibreChat Todo feature: the mongoose record schema
(packages/data-schemas/src/schema/todo.ts), the zod validation plus the
owner-scoped data-access functions (api/models/Todo), and the request handlers
(api/server/controllers/TodoController).  Strings are Lean `String`s, object
ids and timestamps are `Nat`s, the document store is a list of documents plus
an id counter, and each operation takes the request's authenticated user id
and the current clock explicitly.
-/

set_option maxRecDepth 10000

namespace TodoApp

/-- JavaScript `String.prototype.trim`: surrounding whitespace removed. -/
def trimChars (l : List Char) : List Char :=
  ((l.dropWhile Char.isWhitespace).reverse.dropWhile Char.isWhitespace).reverse

/-- `s.trim()` on a string value. -/
def jsTrim (s : String) : String := String.mk (trimChars s.data)

/-- A persisted to-do document, after the mongoose schema
(title/description trimmed by setters, timestamps managed by the store). -/
structure Todo where
  _id : Nat
  title : String
  description : Option String
  status : String
  user : String
  createdAt : Nat
  updatedAt : Nat
deriving Repr, DecidableEq

/-- The document store: the `todos` collection plus the id generator. -/
structure Store where
  todos : List Todo
  nextId : Nat
deriving Repr, DecidableEq

def emptyStore : Store := { todos := [], nextId := 0 }

/-- `['pending', 'in_progress', 'completed'].includes(s)` — the status
enumeration shared by the zod schema and the mongoose schema. -/
def validStatus (s : String) : Bool :=
  s = "pending" || s = "in_progress" || s = "completed"

/-- JavaScript truthiness test for an optional string value
(`undefined`/missing and the empty string are falsy). -/
def strFalsy : Option String → Bool
  | none => true
  | some s => s = ""

/-- `v || dflt` on an optional string value. -/
def jsOr (s : Option String) (dflt : String) : String :=
  match s with
  | some v => if v = "" then dflt else v
  | none => dflt

/-- Candidate object handed to `todoSchema.parse` in `createTodo`:
`{ ...todoData, user: req.user.id, status: todoData.status || 'pending' }`. -/
structure TodoInput where
  title : String
  description : Option String
  status : String
  user : String
deriving Repr, DecidableEq

/-- zod `todoSchema.parse`: reports the first violated constraint in field
order (title min 1 / max 255, description max 1000, status enum, user min 1);
zod does not trim. -/
def todoSchemaParse (t : TodoInput) : Except String TodoInput :=
  if t.title.length < 1 then .error "Title is required"
  else if 255 < t.title.length then .error "Title must be 255 characters or less"
  else if (match t.description with
           | none => false
           | some d => decide (1000 < d.length)) then
    .error "Description must be 1000 characters or less"
  else if !(validStatus t.status) then .error "Invalid enum value"
  else if t.user.length < 1 then .error "User is required"
  else .ok t

/-- Candidate object handed to `todoSchema.partial().parse` in `updateTodo`:
every field optional, a present field checked exactly as on create. -/
structure TodoPartialInput where
  title : Option String
  description : Option String
  status : Option String
  user : Option String
deriving Repr, DecidableEq

/-- Runs a check on an optional field, absent fields pass. -/
def optViolates (f : String → Bool) : Option String → Bool
  | none => false
  | some s => f s

/-- zod `todoSchema.partial().parse`. -/
def todoSchemaParseOptional (t : TodoPartialInput) : Except String TodoPartialInput :=
  if optViolates (fun s => decide (s.length < 1)) t.title then
    .error "Title is required"
  else if optViolates (fun s => decide (255 < s.length)) t.title then
    .error "Title must be 255 characters or less"
  else if optViolates (fun s => decide (1000 < s.length)) t.description then
    .error "Description must be 1000 characters or less"
  else if optViolates (fun s => !(validStatus s)) t.status then
    .error "Invalid enum value"
  else if optViolates (fun s => decide (s.length < 1)) t.user then
    .error "User is required"
  else .ok t

/-- Data object passed to `createTodo` (the controller passes title,
description, status; a direct caller could also inject a `user` key, which the
spread in `createTodo` always overrides with `req.user.id`). -/
structure TodoData where
  title : String
  description : Option String
  status : Option String
  user : Option String
deriving Repr, DecidableEq

/-- mongoose document validation run by `save` after the trim setters:
title required and at most 255 chars, description at most 1000 chars,
status in the enumeration, user required. -/
def mongooseSaveOk (t : TodoInput) : Bool :=
  (jsTrim t.title) ≠ "" && decide ((jsTrim t.title).length ≤ 255) &&
  (match t.description with
   | none => true
   | some d => decide ((jsTrim d).length ≤ 1000)) &&
  validStatus t.status && t.user ≠ ""

/-- `createTodo(req, todoData)` from api/models/Todo: authenticates, validates
`{ ...todoData, user: req.user.id, status: todoData.status || 'pending' }`
with zod, then saves a new document (store-generated id, fresh timestamps). -/
def createTodo (reqUserId : Option String) (todoData : TodoData) (now : Nat)
    (st : Store) : Except String (Todo × Store) :=
  match reqUserId with
  | none => .error "User not authenticated"
  | some uid =>
    if uid = "" then .error "User not authenticated"
    else
      match todoSchemaParse { title := todoData.title,
                              description := todoData.description,
                              status := jsOr todoData.status "pending",
                              user := uid } with
      | .error m => .error m
      | .ok v =>
        if mongooseSaveOk v then
          let todo : Todo :=
            { _id := st.nextId, title := jsTrim v.title,
              description := v.description.map jsTrim,
              status := v.status, user := v.user,
              createdAt := now, updatedAt := now }
          .ok (todo, { todos := st.todos ++ [todo], nextId := st.nextId + 1 })
        else .error "Todo validation failed"

/-- The `find` filter of `getTodos`: always `user: req.user.id`, and
`status` only when the query value is truthy and in the enumeration. -/
def listFilter (uid : String) (status : Option String) (t : Todo) : Bool :=
  match status with
  | some s => if s ≠ "" && validStatus s then t.user = uid && t.status = s
              else t.user = uid
  | none => t.user = uid

/-- `.sort({ createdAt: -1 })`: newest first. -/
def createdDesc (a b : Todo) : Prop := b.createdAt ≤ a.createdAt

instance : DecidableRel createdDesc := fun a b => Nat.decLe b.createdAt a.createdAt

instance : IsTotal Todo createdDesc := ⟨fun a b => Nat.le_total b.createdAt a.createdAt⟩

instance : IsTrans Todo createdDesc := ⟨fun _ _ _ h1 h2 => Nat.le_trans h2 h1⟩

/-- `getTodos(req, { status, limit, skip })`: owner filter plus optional valid
status filter, sorted newest first, then skip (default 0), then limit
(default 50). -/
def getTodos (reqUserId : Option String) (status : Option String)
    (limit skip : Option Nat) (st : Store) : Except String (List Todo) :=
  match reqUserId with
  | none => .error "User not authenticated"
  | some uid =>
    if uid = "" then .error "User not authenticated"
    else
      .ok ((((st.todos.filter (listFilter uid status)).insertionSort
              createdDesc).drop (skip.getD 0)).take (limit.getD 50))

/-- `Todo.findOne({ _id: todoId, user: req.user.id })`. -/
def findTodo (st : Store) (uid : String) (id : Nat) : Option Todo :=
  st.todos.find? (fun t => t._id = id && t.user = uid)

/-- `getTodo(req, todoId)`. -/
def getTodo (reqUserId : Option String) (id : Nat) (st : Store) :
    Except String Todo :=
  match reqUserId with
  | none => .error "User not authenticated"
  | some uid =>
    if uid = "" then .error "User not authenticated"
    else
      match findTodo st uid id with
      | none => .error "Todo not found"
      | some t => .ok t

/-- `deleteOne`: removes the first matching document, reporting it. -/
def removeFirst (p : Todo → Bool) : List Todo → Option Todo × List Todo
  | [] => (none, [])
  | t :: ts =>
    if p t then (some t, ts)
    else ((removeFirst p ts).1, t :: (removeFirst p ts).2)

/-- `deleteTodo(req, todoId)`: owner-scoped `deleteOne`, `deletedCount === 0`
becomes the `Todo not found` error. -/
def deleteTodo (reqUserId : Option String) (id : Nat) (st : Store) :
    Except String Bool × Store :=
  match reqUserId with
  | none => (.error "User not authenticated", st)
  | some uid =>
    if uid = "" then (.error "User not authenticated", st)
    else
      let r := removeFirst (fun t => t._id = id && t.user = uid) st.todos
      match r.1 with
      | none => (.error "Todo not found", st)
      | some _ => (.ok true, { st with todos := r.2 })

/-- `findOneAndUpdate` with `{ new: true }`: rewrites the first matching
document and returns the rewritten document. -/
def updateFirst (p : Todo → Bool) (f : Todo → Todo) :
    List Todo → Option Todo × List Todo
  | [] => (none, [])
  | t :: ts =>
    if p t then (some (f t), f t :: ts)
    else ((updateFirst p f ts).1, t :: (updateFirst p f ts).2)

/-- Data object passed to `updateTodo` (the controller pre-trims title and
description before building it). -/
structure UpdateData where
  title : Option String
  description : Option String
  status : Option String
deriving Repr, DecidableEq

/-- The `$set` of `updateTodo`: the validated fields (which always include
`user: req.user.id`) plus `updatedAt: new Date()`; the mongoose trim setters
run on the written strings. -/
def applyUpdate (upd : UpdateData) (uid : String) (now : Nat) (t : Todo) : Todo :=
  { t with
    title := (upd.title.map jsTrim).getD t.title,
    description := match upd.description with
      | some d => some (jsTrim d)
      | none => t.description,
    status := upd.status.getD t.status,
    user := uid,
    updatedAt := now }

/-- mongoose update validation (`runValidators: true`) over the paths being
set, after the trim setters. -/
def updateValidatorsOk (upd : UpdateData) (uid : String) : Bool :=
  (match upd.title with
   | none => true
   | some s => jsTrim s ≠ "" && decide ((jsTrim s).length ≤ 255)) &&
  (match upd.description with
   | none => true
   | some d => decide ((jsTrim d).length ≤ 1000)) &&
  (match upd.status with
   | none => true
   | some s => validStatus s) &&
  uid ≠ ""

/-- `updateTodo(req, todoId, updateData)`: zod-validates the partial payload
(with `user: req.user.id` spliced in), then owner-scoped `findOneAndUpdate`
setting the supplied fields and `updatedAt`. -/
def updateTodo (reqUserId : Option String) (id : Nat) (upd : UpdateData)
    (now : Nat) (st : Store) : Except String Todo × Store :=
  match reqUserId with
  | none => (.error "User not authenticated", st)
  | some uid =>
    if uid = "" then (.error "User not authenticated", st)
    else
      match todoSchemaParseOptional { title := upd.title,
                                      description := upd.description,
                                      status := upd.status,
                                      user := some uid } with
      | .error m => (.error m, st)
      | .ok _ =>
        if updateValidatorsOk upd uid then
          let r := updateFirst (fun t => t._id = id && t.user = uid)
                     (applyUpdate upd uid now) st.todos
          match r.1 with
          | none => (.error "Todo not found", st)
          | some t => (.ok t, { st with todos := r.2 })
        else (.error "Todo validation failed", st)

/-- The toggle's fixed successor map (`switch (todo.status)` with its
`default` arm). -/
def nextStatus (s : String) : String :=
  if s = "pending" then "in_progress"
  else if s = "in_progress" then "completed"
  else if s = "completed" then "pending"
  else "pending"

/-- `toggleTodoStatus(req, todoId)`: owner-scoped read, successor status,
owner-scoped `findOneAndUpdate` writing the new status and `updatedAt`.
(The inner `none` arm is unreachable in this sequential model: the document
found by the read is still present for the write.) -/
def toggleTodoStatus (reqUserId : Option String) (id : Nat) (now : Nat)
    (st : Store) : Except String Todo × Store :=
  match reqUserId with
  | none => (.error "User not authenticated", st)
  | some uid =>
    if uid = "" then (.error "User not authenticated", st)
    else
      match findTodo st uid id with
      | none => (.error "Todo not found", st)
      | some todo =>
        let newStatus := nextStatus todo.status
        let r := updateFirst (fun t => t._id = id && t.user = uid)
                   (fun t => { t with status := newStatus, updatedAt := now }) st.todos
        match r.1 with
        | none => (.error "Todo not found", st)
        | some t => (.ok t, { st with todos := r.2 })

/-- The JSON envelope of the single-item request handlers together with the
HTTP status code they send. -/
structure ApiResponse where
  status : Nat
  success : Bool
  data : Option Todo
  message : Option String
deriving Repr, DecidableEq

/-- The JSON envelope of the list request handler. -/
structure ListResponse where
  status : Nat
  success : Bool
  data : Option (List Todo)
  count : Option Nat
  message : Option String
deriving Repr, DecidableEq

/-- The request body destructured by `createTodoController`; a client may also
send `user`/`owner` keys, which the destructuring never reads. -/
structure CreateBody where
  title : Option String
  description : Option String
  status : Option String
  user : Option String
  owner : Option String
deriving Repr, DecidableEq

/-- `createTodoController`: the empty/whitespace-only/missing title guard
answers 400; any error thrown by `createTodo` (zod validation included) is
answered with 500 carrying `error.message`. -/
def createTodoController (reqUserId : Option String) (body : CreateBody)
    (now : Nat) (st : Store) : ApiResponse × Store :=
  if strFalsy body.title || (jsTrim (body.title.getD "")).length = 0 then
    ({ status := 400, success := false, data := none,
       message := some "Title is required" }, st)
  else
    match createTodo reqUserId { title := jsTrim (body.title.getD ""), description := body.description.map jsTrim, status := some (jsOr body.status "pending"), user := none } now st with
    | .ok (todo, st') =>
      ({ status := 201, success := true, data := some todo,
         message := some "Todo created successfully" }, st')
    | .error m =>
      ({ status := 500, success := false, data := none, message := some m }, st)

/-- `getTodoController`: 200 on success, 404 exactly when the error message is
`Todo not found`, 500 otherwise. -/
def getTodoController (reqUserId : Option String) (id : Nat) (st : Store) :
    ApiResponse :=
  match getTodo reqUserId id st with
  | .ok t => { status := 200, success := true, data := some t, message := none }
  | .error m =>
    { status := if m = "Todo not found" then 404 else 500, success := false,
      data := none, message := some m }

/-- `getTodosController`: 200 with data and count, 500 on any error. -/
def getTodosController (reqUserId : Option String) (status : Option String)
    (limit skip : Option Nat) (st : Store) : ListResponse :=
  match getTodos reqUserId status limit skip st with
  | .ok todos =>
    { status := 200, success := true, data := some todos,
      count := some todos.length, message := none }
  | .error m =>
    { status := 500, success := false, data := none, count := none,
      message := some m }

/-- `deleteTodoController`. -/
def deleteTodoController (reqUserId : Option String) (id : Nat) (st : Store) :
    ApiResponse × Store :=
  let r := deleteTodo reqUserId id st
  match r.1 with
  | .ok _ =>
    ({ status := 200, success := true, data := none,
       message := some "Todo deleted successfully" }, r.2)
  | .error m =>
    ({ status := if m = "Todo not found" then 404 else 500, success := false,
       data := none, message := some m }, r.2)

/-- The request body destructured by `updateTodoController`. -/
structure UpdateBody where
  title : Option String
  description : Option String
  status : Option String
deriving Repr, DecidableEq

/-- `if (title !== undefined)` guard of `updateTodoController`: a supplied
title that is falsy or whitespace-only is rejected with 400. -/
def updBadTitle (body : UpdateBody) : Bool :=
  match body.title with
  | none => false
  | some t => t = "" || (jsTrim t).length = 0

/-- `if (status !== undefined)` guard of `updateTodoController`: a supplied
status outside the enumeration is rejected with 400. -/
def updBadStatus (body : UpdateBody) : Bool :=
  match body.status with
  | none => false
  | some s => !(validStatus s)

/-- `updateTodoController`: controller-level guards answer 400, then
`updateTodo` is called with the trimmed supplied fields; `Todo not found`
becomes 404, any other thrown error 500. -/
def updateTodoController (reqUserId : Option String) (id : Nat)
    (body : UpdateBody) (now : Nat) (st : Store) : ApiResponse × Store :=
  if updBadTitle body then
    ({ status := 400, success := false, data := none,
       message := some "Title cannot be empty" }, st)
  else if updBadStatus body then
    ({ status := 400, success := false, data := none,
       message := some "Invalid status. Must be one of: pending, in_progress, completed" }, st)
  else
    let upd : UpdateData := { title := body.title.map jsTrim,
                              description := body.description.map jsTrim,
                              status := body.status }
    let r := updateTodo reqUserId id upd now st
    match r.1 with
    | .ok t =>
      ({ status := 200, success := true, data := some t,
         message := some "Todo updated successfully" }, r.2)
    | .error m =>
      ({ status := if m = "Todo not found" then 404 else 500, success := false,
         data := none, message := some m }, r.2)

/-- `toggleTodoStatusController`. -/
def toggleTodoStatusController (reqUserId : Option String) (id : Nat)
    (now : Nat) (st : Store) : ApiResponse × Store :=
  let r := toggleTodoStatus reqUserId id now st
  match r.1 with
  | .ok t =>
    ({ status := 200, success := true, data := some t,
       message := some ("Todo status changed to " ++ t.status) }, r.2)
  | .error m =>
    ({ status := if m = "Todo not found" then 404 else 500, success := false,
       data := none, message := some m }, r.2)

/-- One mutating operation of the model layer, with the caller identity and
the clock it runs under. -/
inductive TodoOp where
  | createOp (uid : String) (todoData : TodoData) (now : Nat)
  | updateOp (uid : String) (id : Nat) (upd : UpdateData) (now : Nat)
  | toggleOp (uid : String) (id : Nat) (now : Nat)

/-- The store left behind by one operation (a failed operation leaves the
store unchanged; each model function already returns the unchanged store on
failure). -/
def applyOp (st : Store) : TodoOp → Store
  | .createOp uid d now =>
    match createTodo (some uid) d now st with
    | .ok (_, st') => st'
    | .error _ => st
  | .updateOp uid id upd now => (updateTodo (some uid) id upd now st).2
  | .toggleOp uid id now => (toggleTodoStatus (some uid) id now st).2

/-- The store after a sequence of operations. -/
def applyOps (st : Store) : List TodoOp → Store
  | [] => st
  | op :: ops => applyOps (applyOp st op) ops

/-- Every persisted document carries one of the three enumerated statuses. -/
def statusInvariant (st : Store) : Prop :=
  ∀ t ∈ st.todos, validStatus t.status = true

/-- The store with every document carrying the given id removed: the state an
id that "does not exist at all" sees. -/
def removeId (st : Store) (id : Nat) : Store :=
  { st with todos := st.todos.filter (fun t => t._id ≠ id) }

/-- The constraints `todoSchema.parse` enforces, as a proposition. -/
def zodConstraintsOk (t : TodoInput) : Prop :=
  1 ≤ t.title.length ∧ t.title.length ≤ 255 ∧
  (match t.description with
   | none => True
   | some d => d.length ≤ 1000) ∧
  validStatus t.status = true ∧ 1 ≤ t.user.length

/-- The document a successful `POST /api/todos` persists, spelled out. -/
def ctrlNewTodo (uid : String) (body : CreateBody) (now : Nat) (st : Store) : Todo :=
  { _id := st.nextId, title := jsTrim (body.title.getD ""),
    description := body.description.map jsTrim,
    status := jsOr body.status "pending", user := uid,
    createdAt := now, updatedAt := now }

/-- A to-do document fixture owned by `u1`. -/
def sampleTodo (i c : Nat) : Todo :=
  { _id := i, title := "task", description := none, status := "pending",
    user := "u1", createdAt := c, updatedAt := c }

/-- Five documents for `u1` with distinct creation times. -/
def listStore : Store :=
  { todos := [sampleTodo 0 10, sampleTodo 1 30, sampleTodo 2 20,
              sampleTodo 3 50, sampleTodo 4 40], nextId := 5 }

/-- One document owned by `u1`. -/
def todoA : Todo :=
  { _id := 0, title := "Buy milk", description := none, status := "pending",
    user := "u1", createdAt := 5, updatedAt := 5 }

def storeA : Store := { todos := [todoA], nextId := 1 }

/-- A store whose only document (id 0) belongs to `u2`. -/
def crossStore : Store :=
  { todos := [{ _id := 0, title := "secret", description := none,
                status := "pending", user := "u2", createdAt := 1,
                updatedAt := 1 }], nextId := 1 }

/-- A create body of 256 `a`s as title. -/
def longTitleBody : CreateBody :=
  { title := some (String.mk (List.replicate 256 'a')), description := none,
    status := none, user := none, owner := none }

/-- A create body that tries to inject an owner. -/
def injectionBody : CreateBody :=
  { title := some "Buy milk", description := none, status := none,
    user := some "evil", owner := some "evil" }

/-- A partial update setting only the status. -/
def statusOnlyUpd : UpdateData :=
  { title := none, description := none, status := some "completed" }

/-- A 255-character title. -/
def title255 : String := String.mk (List.replicate 255 'a')

/-- A 256-character title. -/
def title256 : String := String.mk (List.replicate 256 'a')

theorem dropWhile_self {α : Type} (p : α → Bool) (l : List α) :
    List.dropWhile p (List.dropWhile p l) = List.dropWhile p l := by
  induction l with
  | nil => rfl
  | cons x xs ih =>
    rw [List.dropWhile_cons]
    by_cases h : p x = true
    · rw [if_pos h]; exact ih
    · rw [if_neg h, List.dropWhile_cons, if_neg h]

theorem head?_dropWhile {α : Type} (p : α → Bool) (l : List α) (a : α)
    (h : (List.dropWhile p l).head? = some a) : p a = false := by
  induction l with
  | nil => simp at h
  | cons x xs ih =>
    rw [List.dropWhile_cons] at h
    by_cases hx : p x = true
    · rw [if_pos hx] at h; exact ih h
    · rw [if_neg hx] at h
      simp only [List.head?_cons, Option.some.injEq] at h
      rw [h] at hx
      exact Bool.eq_false_iff.mpr hx

theorem getLast?_dropWhile {α : Type} (p : α → Bool) (l : List α)
    (h : List.dropWhile p l ≠ []) :
    (List.dropWhile p l).getLast? = l.getLast? := by
  induction l with
  | nil => simp at h
  | cons x xs ih =>
    rw [List.dropWhile_cons] at h ⊢
    by_cases hx : p x = true
    · rw [if_pos hx] at h ⊢
      rw [ih h]
      have hxs : xs ≠ [] := by
        intro he
        rw [he] at h
        simp at h
      cases xs with
      | nil => exact absurd rfl hxs
      | cons y ys => rw [List.getLast?_cons_cons]
    · rw [if_neg hx]

theorem trimChars_idem (l : List Char) : trimChars (trimChars l) = trimChars l := by
  unfold trimChars
  have h1 : List.dropWhile Char.isWhitespace
      ((List.dropWhile Char.isWhitespace
        ((List.dropWhile Char.isWhitespace l).reverse)).reverse) =
      (List.dropWhile Char.isWhitespace
        ((List.dropWhile Char.isWhitespace l).reverse)).reverse := by
    cases hBr : (List.dropWhile Char.isWhitespace
        ((List.dropWhile Char.isWhitespace l).reverse)).reverse with
    | nil => simp
    | cons c cs =>
      rw [List.dropWhile_cons]
      have hhead : (List.dropWhile Char.isWhitespace
          ((List.dropWhile Char.isWhitespace l).reverse)).reverse.head? = some c := by
        rw [hBr]; rfl
      rw [List.head?_reverse] at hhead
      have hBne : List.dropWhile Char.isWhitespace
          ((List.dropWhile Char.isWhitespace l).reverse) ≠ [] := by
        intro he
        rw [he] at hBr
        simp at hBr
      rw [getLast?_dropWhile _ _ hBne, List.getLast?_reverse] at hhead
      rw [head?_dropWhile _ _ _ hhead]
      simp
  rw [h1, List.reverse_reverse, dropWhile_self]

theorem jsTrim_idem (s : String) : jsTrim (jsTrim s) = jsTrim s :=
  congrArg String.mk (trimChars_idem s.data)

theorem length_trimChars_le (l : List Char) : (trimChars l).length ≤ l.length := by
  unfold trimChars
  rw [List.length_reverse]
  calc (List.dropWhile Char.isWhitespace
          ((List.dropWhile Char.isWhitespace l).reverse)).length
      ≤ (List.dropWhile Char.isWhitespace l).reverse.length :=
        (List.dropWhile_sublist _).length_le
    _ = (List.dropWhile Char.isWhitespace l).length := List.length_reverse _
    _ ≤ l.length := (List.dropWhile_sublist _).length_le

theorem jsTrim_length_le (s : String) : (jsTrim s).length ≤ s.length :=
  length_trimChars_le s.data

theorem string_eq_empty_of_length_eq_zero {s : String} (h : s.length = 0) :
    s = "" := by
  apply String.ext
  have h2 : s.data.length = 0 := h
  rw [List.length_eq_zero.mp h2]

theorem string_length_ne_zero_of_ne_empty {s : String} (h : s ≠ "") :
    s.length ≠ 0 :=
  fun hz => h (string_eq_empty_of_length_eq_zero hz)

theorem jsTrim_empty : jsTrim "" = "" := rfl

theorem jsOr_pending_ne_empty (s : Option String) : jsOr s "pending" ≠ "" := by
  cases s with
  | none => decide
  | some v =>
    by_cases h : v = ""
    · subst h; decide
    · simp only [jsOr, if_neg h]; exact h

theorem jsOr_self_pending (s : Option String) :
    jsOr (some (jsOr s "pending")) "pending" = jsOr s "pending" := by
  have h := jsOr_pending_ne_empty s
  simp only [jsOr] at h ⊢
  rw [if_neg h]

theorem validStatus_nextStatus (s : String) : validStatus (nextStatus s) = true := by
  unfold nextStatus
  split_ifs <;> decide

theorem nextStatus_of_invalid (s : String) (h : validStatus s = false) :
    nextStatus s = "pending" := by
  simp only [validStatus, Bool.or_eq_false_iff, decide_eq_false_iff_not] at h
  unfold nextStatus
  rw [if_neg h.1.1, if_neg h.1.2, if_neg h.2]

theorem todoSchemaParse_ok_iff {t v : TodoInput} :
    todoSchemaParse t = Except.ok v ↔ v = t ∧ zodConstraintsOk t := by
  unfold todoSchemaParse zodConstraintsOk
  cases t.description with
  | none =>
    split_ifs with h1 h2 h4 h5 <;> simp_all <;>
      first
        | omega
        | exact ⟨fun h => ⟨h.symm, by omega, by omega⟩, fun h => h.1.symm⟩
  | some d =>
    split_ifs with h1 h2 h3 h4 h5 <;> simp_all <;>
      first
        | omega
        | exact ⟨fun h => ⟨h.symm, by omega, by omega⟩, fun h => h.1.symm⟩

theorem updateFirst_of_all_false {p : Todo → Bool} {f : Todo → Todo}
    {l : List Todo} (h : ∀ x ∈ l, p x = false) : updateFirst p f l = (none, l) := by
  induction l with
  | nil => rfl
  | cons x xs ih =>
    have hx : p x = false := h x (List.mem_cons_self x xs)
    have ihr := ih (fun y hy => h y (List.mem_cons_of_mem x hy))
    unfold updateFirst
    rw [if_neg (by rw [hx]; exact Bool.false_ne_true), ihr]

theorem removeFirst_of_all_false {p : Todo → Bool} {l : List Todo}
    (h : ∀ x ∈ l, p x = false) : removeFirst p l = (none, l) := by
  induction l with
  | nil => rfl
  | cons x xs ih =>
    have hx : p x = false := h x (List.mem_cons_self x xs)
    have ihr := ih (fun y hy => h y (List.mem_cons_of_mem x hy))
    unfold removeFirst
    rw [if_neg (by rw [hx]; exact Bool.false_ne_true), ihr]

theorem updateFirst_of_find? {p : Todo → Bool} {f : Todo → Todo}
    {l : List Todo} {t : Todo} (h : l.find? p = some t) :
    ∃ pre post, l = pre ++ t :: post ∧ p t = true ∧
      updateFirst p f l = (some (f t), pre ++ f t :: post) := by
  induction l with
  | nil => simp at h
  | cons x xs ih =>
    by_cases hx : p x = true
    · rw [List.find?_cons_of_pos _ hx] at h
      obtain rfl : x = t := by injection h
      refine ⟨[], xs, rfl, hx, ?_⟩
      unfold updateFirst
      rw [if_pos hx]
      rfl
    · rw [List.find?_cons_of_neg _ hx] at h
      obtain ⟨pre, post, hl, hp, hu⟩ := ih h
      refine ⟨x :: pre, post, by rw [hl]; rfl, hp, ?_⟩
      unfold updateFirst
      rw [if_neg hx, hu]
      rfl

theorem updateFirst_fst_some {p : Todo → Bool} {f : Todo → Todo}
    {l : List Todo} {y : Todo} (h : (updateFirst p f l).1 = some y) :
    ∃ pre t post, l = pre ++ t :: post ∧ p t = true ∧ y = f t ∧
      (updateFirst p f l).2 = pre ++ f t :: post := by
  induction l with
  | nil => simp [updateFirst] at h
  | cons x xs ih =>
    by_cases hx : p x = true
    · unfold updateFirst at h
      rw [if_pos hx] at h
      injection h with h2
      refine ⟨[], x, xs, rfl, hx, h2.symm, ?_⟩
      unfold updateFirst
      rw [if_pos hx]
      rfl
    · unfold updateFirst at h ⊢
      rw [if_neg hx] at h ⊢
      obtain ⟨pre, t, post, hl, hp, hy, h2⟩ := ih h
      refine ⟨x :: pre, t, post, by rw [hl]; rfl, hp, hy, ?_⟩
      simp only [h2]
      rfl

theorem updateFirst_mem {p : Todo → Bool} {f : Todo → Todo} {l : List Todo}
    {x : Todo} (h : x ∈ (updateFirst p f l).2) :
    x ∈ l ∨ ∃ t, t ∈ l ∧ p t = true ∧ x = f t := by
  induction l with
  | nil => simp [updateFirst] at h
  | cons a as ih =>
    unfold updateFirst at h
    by_cases ha : p a = true
    · rw [if_pos ha] at h
      rcases List.mem_cons.mp h with h1 | h1
      · exact Or.inr ⟨a, List.mem_cons_self a as, ha, h1⟩
      · exact Or.inl (List.mem_cons_of_mem a h1)
    · rw [if_neg ha] at h
      rcases List.mem_cons.mp h with h1 | h1
      · exact Or.inl (h1 ▸ List.mem_cons_self a as)
      · rcases ih h1 with h2 | ⟨t, ht, hp, hx⟩
        · exact Or.inl (List.mem_cons_of_mem a h2)
        · exact Or.inr ⟨t, List.mem_cons_of_mem a ht, hp, hx⟩

theorem createTodo_ok_elim {uid : String} {d : TodoData} {now : Nat} {st : Store}
    {t : Todo} {st' : Store}
    (h : createTodo (some uid) d now st = Except.ok (t, st')) :
    uid ≠ "" ∧
    zodConstraintsOk { title := d.title, description := d.description, status := jsOr d.status "pending", user := uid } ∧
    t = { _id := st.nextId, title := jsTrim d.title, description := d.description.map jsTrim, status := jsOr d.status "pending", user := uid, createdAt := now, updatedAt := now } ∧
    st' = { todos := st.todos ++ [t], nextId := st.nextId + 1 } := by
  simp only [createTodo] at h
  split_ifs at h with huid
  refine ⟨huid, ?_⟩
  cases hp : todoSchemaParse { title := d.title, description := d.description, status := jsOr d.status "pending", user := uid } with
  | error m =>
    rw [hp] at h
    exact absurd h (by simp)
  | ok v =>
    rw [hp] at h
    dsimp only at h
    obtain ⟨rfl, hc⟩ := todoSchemaParse_ok_iff.mp hp
    split_ifs at h with hs
    simp only [Except.ok.injEq, Prod.mk.injEq] at h
    refine ⟨hc, h.1.symm, ?_⟩
    rw [← h.2, h.1]

theorem createTodo_ok_intro {uid : String} {d : TodoData} {now : Nat} {st : Store}
    (huid : uid ≠ "") (h1 : 1 ≤ d.title.length) (h2 : d.title.length ≤ 255)
    (h3 : jsTrim d.title ≠ "")
    (h4 : match d.description with
          | none => True
          | some x => x.length ≤ 1000)
    (h5 : validStatus (jsOr d.status "pending") = true) :
    createTodo (some uid) d now st =
      Except.ok ({ _id := st.nextId, title := jsTrim d.title, description := d.description.map jsTrim, status := jsOr d.status "pending", user := uid, createdAt := now, updatedAt := now },
                 { todos := st.todos ++ [{ _id := st.nextId, title := jsTrim d.title, description := d.description.map jsTrim, status := jsOr d.status "pending", user := uid, createdAt := now, updatedAt := now }], nextId := st.nextId + 1 }) := by
  have huser : 1 ≤ uid.length := by
    have := string_length_ne_zero_of_ne_empty huid
    omega
  have hp : todoSchemaParse { title := d.title, description := d.description, status := jsOr d.status "pending", user := uid } = Except.ok { title := d.title, description := d.description, status := jsOr d.status "pending", user := uid } := by
    apply todoSchemaParse_ok_iff.mpr
    refine ⟨rfl, h1, h2, ?_, h5, huser⟩
    cases hd : d.description with
    | none => trivial
    | some x =>
      rw [hd] at h4
      exact h4
  have hA : (jsTrim d.title).length ≤ 255 := le_trans (jsTrim_length_le d.title) h2
  have hs : mongooseSaveOk { title := d.title, description := d.description, status := jsOr d.status "pending", user := uid } = true := by
    cases hd : d.description with
    | none => simp [mongooseSaveOk, h3, hA, h5, huid]
    | some x =>
      rw [hd] at h4
      have hx : (jsTrim x).length ≤ 1000 := le_trans (jsTrim_length_le x) h4
      simp [mongooseSaveOk, h3, hA, h5, huid, hx]
  simp only [createTodo]
  rw [if_neg huid, hp]
  dsimp only
  rw [if_pos hs]

theorem createController_ok {uid : String} {body : CreateBody} {now : Nat}
    {st : Store} {s : String}
    (ht : body.title = some s) (huid : uid ≠ "") (h1 : jsTrim s ≠ "")
    (h2 : (jsTrim s).length ≤ 255)
    (h3 : match body.description with
          | none => True
          | some x => (jsTrim x).length ≤ 1000)
    (h4 : validStatus (jsOr body.status "pending") = true) :
    createTodoController (some uid) body now st =
      ({ status := 201, success := true, data := some (ctrlNewTodo uid body now st), message := some "Todo created successfully" },
       { todos := st.todos ++ [ctrlNewTodo uid body now st], nextId := st.nextId + 1 }) := by
  have hsne : s ≠ "" := fun he => h1 (by rw [he]; exact jsTrim_empty)
  have hlen : (jsTrim s).length ≠ 0 := string_length_ne_zero_of_ne_empty h1
  have hdesc : (body.description.map jsTrim).map jsTrim = body.description.map jsTrim := by
    cases body.description <;> simp [jsTrim_idem]
  have hd4 : match Option.map jsTrim body.description with
      | none => True
      | some x => x.length ≤ 1000 := by
    cases hd : body.description with
    | none => trivial
    | some x =>
      rw [hd] at h3
      exact h3
  unfold createTodoController
  rw [ht]
  rw [if_neg (by
    simp only [strFalsy, Option.getD_some, Bool.or_eq_true, decide_eq_true_eq]
    push_neg
    exact ⟨by simpa using hsne, hlen⟩)]
  rw [@createTodo_ok_intro uid { title := jsTrim ((some s).getD ""), description := body.description.map jsTrim, status := some (jsOr body.status "pending"), user := none } now st huid (by simpa using Nat.one_le_iff_ne_zero.mpr hlen) (by simpa using h2) (by simpa [jsTrim_idem] using h1) hd4 (by simpa [jsOr_self_pending] using h4)]
  dsimp only
  unfold ctrlNewTodo
  rw [ht]
  simp only [Option.getD_some, jsTrim_idem, jsOr_self_pending, hdesc]

theorem ownerPred_false {uid : String} {id : Nat} {l : List Todo}
    (h : ∀ t ∈ l, t._id = id → t.user ≠ uid) :
    ∀ t ∈ l, (decide (t._id = id) && decide (t.user = uid)) = false := by
  intro t ht
  by_cases h1 : t._id = id
  · simp [h1, h t ht h1]
  · simp [h1]

theorem ownerPred_false_filtered {uid : String} {id : Nat} {l : List Todo} :
    ∀ t ∈ l.filter (fun t => t._id ≠ id),
      (decide (t._id = id) && decide (t.user = uid)) = false := by
  intro t ht
  have h2 := (List.mem_filter.mp ht).2
  simp only [decide_eq_true_eq] at h2
  simp [h2]

theorem find?_owner_none {uid : String} {id : Nat} {l : List Todo}
    (h : ∀ t ∈ l, (decide (t._id = id) && decide (t.user = uid)) = false) :
    l.find? (fun t => t._id = id && t.user = uid) = none := by
  rw [List.find?_eq_none]
  intro x hx
  rw [h x hx]
  exact Bool.false_ne_true

/-- C3: for get, update, delete and toggle, an id whose document belongs to a
different owner is observationally identical to an id with no document at all:
the data layer raises the same `Todo not found`, the handlers answer the same
404 envelope with the same message, and the outcome never depends on the other
owner's documents. -/
theorem cross_owner_indistinguishable (uid : String) (id : Nat) (st : Store)
    (now : Nat) (huid : uid ≠ "")
    (h : ∀ t ∈ st.todos, t._id = id → t.user ≠ uid) :
    getTodo (some uid) id st = Except.error "Todo not found" ∧
    getTodo (some uid) id st = getTodo (some uid) id (removeId st id) ∧
    getTodoController (some uid) id st = { status := 404, success := false, data := none, message := some "Todo not found" } ∧
    getTodoController (some uid) id st = getTodoController (some uid) id (removeId st id) ∧
    (deleteTodo (some uid) id st).1 = Except.error "Todo not found" ∧
    (deleteTodo (some uid) id st).2 = st ∧
    (deleteTodo (some uid) id st).1 = (deleteTodo (some uid) id (removeId st id)).1 ∧
    (deleteTodoController (some uid) id st).1 = { status := 404, success := false, data := none, message := some "Todo not found" } ∧
    (toggleTodoStatus (some uid) id now st).1 = Except.error "Todo not found" ∧
    (toggleTodoStatus (some uid) id now st).2 = st ∧
    (toggleTodoStatus (some uid) id now st).1 = (toggleTodoStatus (some uid) id now (removeId st id)).1 ∧
    (toggleTodoStatusController (some uid) id now st).1 = { status := 404, success := false, data := none, message := some "Todo not found" } ∧
    (∀ upd, (updateTodo (some uid) id upd now st).1 = (updateTodo (some uid) id upd now (removeId st id)).1 ∧
            (updateTodo (some uid) id upd now st).2 = st) := by
  have hp1 := ownerPred_false h
  have hp2 : ∀ t ∈ (removeId st id).todos,
      (decide (t._id = id) && decide (t.user = uid)) = false :=
    ownerPred_false_filtered
  have hf1 : findTodo st uid id = none := find?_owner_none hp1
  have hf2 : findTodo (removeId st id) uid id = none := find?_owner_none hp2
  have hget1 : getTodo (some uid) id st = Except.error "Todo not found" := by
    simp [getTodo, hf1, huid]
  have hget2 : getTodo (some uid) id (removeId st id) = Except.error "Todo not found" := by
    simp [getTodo, hf2, huid]
  have hr1 : removeFirst (fun t => t._id = id && t.user = uid) st.todos = (none, st.todos) :=
    removeFirst_of_all_false hp1
  have hr2 : removeFirst (fun t => t._id = id && t.user = uid) (removeId st id).todos = (none, (removeId st id).todos) :=
    removeFirst_of_all_false hp2
  have hdel1 : deleteTodo (some uid) id st = (Except.error "Todo not found", st) := by
    simp [deleteTodo, huid, hr1]
  have hdel2 : deleteTodo (some uid) id (removeId st id) = (Except.error "Todo not found", removeId st id) := by
    simp [deleteTodo, huid, hr2]
  have htog1 : toggleTodoStatus (some uid) id now st = (Except.error "Todo not found", st) := by
    simp [toggleTodoStatus, huid, hf1]
  have htog2 : toggleTodoStatus (some uid) id now (removeId st id) = (Except.error "Todo not found", removeId st id) := by
    simp [toggleTodoStatus, huid, hf2]
  refine ⟨hget1, by rw [hget1, hget2], by simp [getTodoController, hget1],
    by simp [getTodoController, hget1, hget2], by rw [hdel1],
    by rw [hdel1], by rw [hdel1, hdel2],
    by simp [deleteTodoController, hdel1],
    by rw [htog1], by rw [htog1], by rw [htog1, htog2],
    by simp [toggleTodoStatusController, htog1], ?_⟩
  intro upd
  cases hparse : todoSchemaParseOptional { title := upd.title, description := upd.description, status := upd.status, user := some uid } with
  | error m =>
    constructor <;> simp [updateTodo, huid, hparse]
  | ok v =>
    by_cases hval : updateValidatorsOk upd uid = true
    · have hu1 : updateFirst (fun t => t._id = id && t.user = uid) (applyUpdate upd uid now) st.todos = (none, st.todos) :=
        updateFirst_of_all_false hp1
      have hu2 : updateFirst (fun t => t._id = id && t.user = uid) (applyUpdate upd uid now) (removeId st id).todos = (none, (removeId st id).todos) :=
        updateFirst_of_all_false hp2
      constructor <;> simp [updateTodo, huid, hparse, hval, hu1, hu2]
    · constructor <;> simp [updateTodo, huid, hparse, hval]

/-- C3 witness: caller `u1` against a store whose only document (id 0) is
owned by `u2` gets the 404 `Todo not found` envelope. -/
theorem cross_owner_indistinguishable_witness :
    getTodoController (some "u1") 0 crossStore = { status := 404, success := false, data := none, message := some "Todo not found" } :=
  (cross_owner_indistinguishable "u1" 0 crossStore 9 (by decide) (by decide)).2.2.1

/-- C4: ToggleStatus on an existing owner-scoped document returns the stored
document with its status advanced by the fixed successor map
(pending → in_progress → completed → pending, any other stored value →
pending) and a refreshed `updatedAt`, and persists exactly that document. -/
theorem toggle_fixed_successor (uid : String) (id : Nat) (now : Nat) (st : Store)
    (todo : Todo) (huid : uid ≠ "") (hfind : findTodo st uid id = some todo) :
    ∃ st',
      toggleTodoStatus (some uid) id now st =
        (Except.ok { todo with status := nextStatus todo.status, updatedAt := now }, st') ∧
      { todo with status := nextStatus todo.status, updatedAt := now } ∈ st'.todos ∧
      (todo.status = "pending" → nextStatus todo.status = "in_progress") ∧
      (todo.status = "in_progress" → nextStatus todo.status = "completed") ∧
      (todo.status = "completed" → nextStatus todo.status = "pending") ∧
      (validStatus todo.status = false → nextStatus todo.status = "pending") := by
  obtain ⟨pre, post, hl, hpt, hu⟩ :=
    updateFirst_of_find? (f := fun t => { t with status := nextStatus todo.status, updatedAt := now }) hfind
  refine ⟨{ st with todos := pre ++ { todo with status := nextStatus todo.status, updatedAt := now } :: post }, ?_, ?_, ?_, ?_, ?_, ?_⟩
  · simp [toggleTodoStatus, huid, hfind, hu]
  · exact List.mem_append_right pre (List.mem_cons_self _ _)
  · intro hs
    rw [hs]
    decide
  · intro hs
    rw [hs]
    decide
  · intro hs
    rw [hs]
    decide
  · exact nextStatus_of_invalid todo.status

/-- C4 witness: toggling the pending document of `u1` at id 0 yields the same
document with status `in_progress` and `updatedAt` 6. -/
theorem toggle_fixed_successor_witness :
    ∃ st',
      toggleTodoStatus (some "u1") 0 6 storeA =
        (Except.ok { todoA with status := nextStatus todoA.status, updatedAt := 6 }, st') ∧
      { todoA with status := nextStatus todoA.status, updatedAt := 6 } ∈ st'.todos ∧
      (todoA.status = "pending" → nextStatus todoA.status = "in_progress") ∧
      (todoA.status = "in_progress" → nextStatus todoA.status = "completed") ∧
      (todoA.status = "completed" → nextStatus todoA.status = "pending") ∧
      (validStatus todoA.status = false → nextStatus todoA.status = "pending") :=
  toggle_fixed_successor "u1" 0 6 storeA todoA (by decide) (by decide)

theorem updateTodo_snd {uid : String} {id : Nat} {upd : UpdateData} {now : Nat}
    {st : Store} :
    (updateTodo (some uid) id upd now st).2 = st ∨
    (updateValidatorsOk upd uid = true ∧
     (updateTodo (some uid) id upd now st).2.todos =
       (updateFirst (fun t => t._id = id && t.user = uid)
         (applyUpdate upd uid now) st.todos).2) := by
  by_cases huid : uid = ""
  · left
    simp [updateTodo, huid]
  · cases hp : todoSchemaParseOptional { title := upd.title, description := upd.description, status := upd.status, user := some uid } with
    | error m =>
      left
      simp [updateTodo, huid, hp]
    | ok v =>
      by_cases hval : updateValidatorsOk upd uid = true
      · cases hr : (updateFirst (fun t => t._id = id && t.user = uid) (applyUpdate upd uid now) st.todos).1 with
        | none =>
          left
          simp [updateTodo, huid, hp, hval, hr]
        | some t =>
          right
          exact ⟨hval, by simp [updateTodo, huid, hp, hval, hr]⟩
      · left
        simp [updateTodo, huid, hp, hval]

theorem toggleTodo_snd {uid : String} {id : Nat} {now : Nat} {st : Store} :
    (toggleTodoStatus (some uid) id now st).2 = st ∨
    (∃ todo, findTodo st uid id = some todo ∧
      (toggleTodoStatus (some uid) id now st).2.todos =
        (updateFirst (fun t => t._id = id && t.user = uid)
          (fun t => { t with status := nextStatus todo.status, updatedAt := now })
          st.todos).2) := by
  by_cases huid : uid = ""
  · left
    simp [toggleTodoStatus, huid]
  · cases hf : findTodo st uid id with
    | none =>
      left
      simp [toggleTodoStatus, huid, hf]
    | some todo =>
      cases hr : (updateFirst (fun t => t._id = id && t.user = uid) (fun t => { t with status := nextStatus todo.status, updatedAt := now }) st.todos).1 with
      | none =>
        left
        simp [toggleTodoStatus, huid, hf, hr]
      | some t =>
        right
        exact ⟨todo, rfl, by simp [toggleTodoStatus, huid, hf, hr]⟩

theorem applyOp_status {st : Store} {op : TodoOp} {x : Todo}
    (hx : x ∈ (applyOp st op).todos) :
    (∃ t ∈ st.todos, x.status = t.status) ∨ validStatus x.status = true := by
  cases op with
  | createOp uid d now =>
    dsimp only [applyOp] at hx
    cases hc : createTodo (some uid) d now st with
    | ok p =>
      obtain ⟨t, st'⟩ := p
      rw [hc] at hx
      obtain ⟨-, hcon, hteq, hst⟩ := createTodo_ok_elim hc
      rw [hst] at hx
      rcases List.mem_append.mp hx with h1 | h1
      · exact Or.inl ⟨x, h1, rfl⟩
      · rw [List.mem_singleton.mp h1, hteq]
        exact Or.inr hcon.2.2.2.1
    | error m =>
      rw [hc] at hx
      exact Or.inl ⟨x, hx, rfl⟩
  | updateOp uid id upd now =>
    dsimp only [applyOp] at hx
    rcases updateTodo_snd with h2 | ⟨hval, h2⟩
    · rw [h2] at hx
      exact Or.inl ⟨x, hx, rfl⟩
    · rw [h2] at hx
      rcases updateFirst_mem hx with h3 | ⟨t, ht, -, hxt⟩
      · exact Or.inl ⟨x, h3, rfl⟩
      · cases hus : upd.status with
        | none =>
          refine Or.inl ⟨t, ht, ?_⟩
          rw [hxt]
          simp [applyUpdate, hus]
        | some s =>
          refine Or.inr ?_
          rw [hxt]
          have : validStatus s = true := by
            simp only [updateValidatorsOk, hus, Bool.and_eq_true] at hval
            exact hval.1.2
          simpa [applyUpdate, hus]
  | toggleOp uid id now =>
    dsimp only [applyOp] at hx
    rcases toggleTodo_snd with h2 | ⟨todo, -, h2⟩
    · rw [h2] at hx
      exact Or.inl ⟨x, hx, rfl⟩
    · rw [h2] at hx
      rcases updateFirst_mem hx with h3 | ⟨t, ht, -, hxt⟩
      · exact Or.inl ⟨x, h3, rfl⟩
      · refine Or.inr ?_
        rw [hxt]
        simpa using validStatus_nextStatus todo.status

/-- C5: starting from the empty store, after any sequence of create, update
and toggle operations every persisted document's status is one of the three
enumerated values, and the invariant is preserved from any store satisfying
it. -/
theorem statuses_always_enumerated :
    (∀ ops, statusInvariant (applyOps emptyStore ops)) ∧
    (∀ st ops, statusInvariant st → statusInvariant (applyOps st ops)) := by
  have hstep : ∀ st op, statusInvariant st → statusInvariant (applyOp st op) := by
    intro st op hinv x hx
    rcases applyOp_status hx with ⟨t, ht, hs⟩ | hs
    · rw [hs]
      exact hinv t ht
    · exact hs
  have hfold : ∀ ops st, statusInvariant st → statusInvariant (applyOps st ops) := by
    intro ops
    induction ops with
    | nil => exact fun st h => h
    | cons op ops ih => exact fun st h => ih _ (hstep st op h)
  refine ⟨fun ops => hfold ops emptyStore ?_, fun st ops => hfold ops st⟩
  intro t ht
  simp [emptyStore] at ht

/-- C5 witness: the invariant holds of the one-document store and is kept by
a concrete create–toggle–update sequence run on it. -/
theorem statuses_always_enumerated_witness :
    statusInvariant storeA ∧
    statusInvariant (applyOps storeA
      [TodoOp.createOp "u2" { title := "x", description := none, status := some "in_progress", user := none } 7,
       TodoOp.toggleOp "u1" 0 8,
       TodoOp.updateOp "u1" 0 { title := none, description := none, status := some "completed" } 9]) :=
  ⟨by unfold statusInvariant; decide,
   statuses_always_enumerated.2 storeA _ (by unfold statusInvariant; decide)⟩

/-- C2: every successful create persists and returns a document whose owner is
the caller's identity, for every request body (including bodies injecting
`user`/`owner` keys), and every successful direct `createTodo` call stores the
caller identity as owner no matter what `user` value the data object carries. -/
theorem create_owner_is_caller (uid : String) (now : Nat) (st : Store)
    (huid : uid ≠ "") :
    (∀ body resp st', createTodoController (some uid) body now st = (resp, st') →
       resp.success = true →
       ∃ todo, resp.data = some todo ∧ todo.user = uid ∧ st'.todos = st.todos ++ [todo]) ∧
    (∀ todoData t st', createTodo (some uid) todoData now st = Except.ok (t, st') →
       t.user = uid ∧ st'.todos = st.todos ++ [t]) := by
  constructor
  · intro body resp st' heq hsucc
    unfold createTodoController at heq
    split_ifs at heq with hguard
    · injection heq with h1 h2
      rw [← h1] at hsucc
      simp at hsucc
    · cases hc : createTodo (some uid) { title := jsTrim (body.title.getD ""), description := body.description.map jsTrim, status := some (jsOr body.status "pending"), user := none } now st with
      | ok p =>
        obtain ⟨t, st2⟩ := p
        rw [hc] at heq
        dsimp only at heq
        injection heq with h1 h2
        obtain ⟨-, -, hteq, hsteq⟩ := createTodo_ok_elim hc
        refine ⟨t, ?_, ?_, ?_⟩
        · rw [← h1]
        · rw [hteq]
        · rw [← h2, hsteq]
      | error m =>
        rw [hc] at heq
        dsimp only at heq
        injection heq with h1 h2
        rw [← h1] at hsucc
        simp at hsucc
  · intro todoData t st' heq
    obtain ⟨-, -, hteq, hsteq⟩ := createTodo_ok_elim heq
    exact ⟨by rw [hteq], by rw [hsteq]⟩

/-- C2 witness: creating with a body that injects `user`/`owner` keys still
yields a document owned by the caller `u1`. -/
theorem create_owner_is_caller_witness :
    ∃ todo, (createTodoController (some "u1") injectionBody 5 emptyStore).1.data = some todo ∧
      todo.user = "u1" ∧
      (createTodoController (some "u1") injectionBody 5 emptyStore).2.todos = emptyStore.todos ++ [todo] :=
  (create_owner_is_caller "u1" 5 emptyStore (by decide)).1 injectionBody
    (createTodoController (some "u1") injectionBody 5 emptyStore).1
    (createTodoController (some "u1") injectionBody 5 emptyStore).2
    rfl (by decide)

/-- C6: a list call returns only the caller's documents, ordered by descending
`createdAt`, with skip (default 0) then limit (default 50) applied after the
ordering; in particular limit 2 and skip 1 against five documents return the
documents ranked second and third by descending `createdAt`. -/
theorem list_ordering_window (uid : String) (limit skip : Option Nat)
    (st : Store) (r : List Todo)
    (h : getTodos (some uid) none limit skip st = Except.ok r) :
    (∀ t ∈ r, t.user = uid) ∧
    r.Pairwise createdDesc ∧
    r = (((st.todos.filter (fun t => t.user = uid)).insertionSort createdDesc).drop (skip.getD 0)).take (limit.getD 50) ∧
    getTodos (some "u1") none (some 2) (some 1) listStore = Except.ok [sampleTodo 4 40, sampleTodo 1 30] := by
  by_cases huid : uid = ""
  · subst huid
    simp [getTodos] at h
  · have hr : r = (((st.todos.filter (listFilter uid none)).insertionSort createdDesc).drop (skip.getD 0)).take (limit.getD 50) := by
      simp only [getTodos, if_neg huid, Except.ok.injEq] at h
      exact h.symm
    refine ⟨?_, ?_, ?_, rfl⟩
    · intro t ht
      rw [hr] at ht
      have h1 := List.mem_of_mem_take ht
      have h2 := List.mem_of_mem_drop h1
      have h3 := (List.mem_insertionSort createdDesc).mp h2
      have h4 := (List.mem_filter.mp h3).2
      simpa [listFilter] using h4
    · rw [hr]
      have hsort := List.sorted_insertionSort createdDesc (st.todos.filter (listFilter uid none))
      exact List.Pairwise.sublist ((List.take_sublist _ _).trans (List.drop_sublist _ _)) hsort
    · rw [hr]
      rfl

/-- C6 witness: limit 2, skip 1 on the five-document store returns the
documents with `createdAt` 40 and 30 (ranks 2 and 3). -/
theorem list_ordering_window_witness :
    getTodos (some "u1") none (some 2) (some 1) listStore = Except.ok [sampleTodo 4 40, sampleTodo 1 30] :=
  (list_ordering_window "u1" (some 2) (some 1) listStore
    [sampleTodo 4 40, sampleTodo 1 30] rfl).2.2.2

/-- C7: a status filter outside the enumeration is silently dropped: the call
still succeeds and returns exactly what a call without any status filter
returns. -/
theorem invalid_status_filter_ignored (uid sv : String) (limit skip : Option Nat)
    (st : Store) (huid : uid ≠ "") (hsv : validStatus sv = false) :
    getTodos (some uid) (some sv) limit skip st = getTodos (some uid) none limit skip st ∧
    ∃ r, getTodos (some uid) (some sv) limit skip st = Except.ok r := by
  have hfilter : listFilter uid (some sv) = listFilter uid none := by
    funext t
    simp [listFilter, hsv]
  constructor
  · simp [getTodos, hfilter]
  · exact ⟨(((st.todos.filter (listFilter uid (some sv))).insertionSort createdDesc).drop (skip.getD 0)).take (limit.getD 50), by simp [getTodos, huid]⟩

/-- C7 witness: filtering by the invalid status `bogus` equals not filtering
at all on the five-document store. -/
theorem invalid_status_filter_ignored_witness :
    getTodos (some "u1") (some "bogus") none none listStore = getTodos (some "u1") none none none listStore :=
  (invalid_status_filter_ignored "u1" "bogus" none none listStore (by decide) (by decide)).1

/-- C8: a successful partial update rewrites exactly the supplied fields
(trimmed) and `updatedAt`; id, owner, `createdAt`, every unsupplied field and
every other document are untouched, and the rewritten document is returned. -/
theorem update_replaces_only_supplied (uid : String) (id : Nat)
    (upd : UpdateData) (now : Nat) (st : Store) (t : Todo) (st' : Store)
    (h : updateTodo (some uid) id upd now st = (Except.ok t, st')) :
    ∃ old pre post,
      st.todos = pre ++ old :: post ∧ old._id = id ∧ old.user = uid ∧
      st'.todos = pre ++ t :: post ∧ st'.nextId = st.nextId ∧
      t._id = old._id ∧ t.user = old.user ∧ t.createdAt = old.createdAt ∧
      t.updatedAt = now ∧
      t.title = (upd.title.map jsTrim).getD old.title ∧
      t.description = upd.description.elim old.description (fun d => some (jsTrim d)) ∧
      t.status = upd.status.getD old.status := by
  by_cases huid : uid = ""
  · simp [updateTodo, huid] at h
  · simp only [updateTodo, if_neg huid] at h
    cases hp : todoSchemaParseOptional { title := upd.title, description := upd.description, status := upd.status, user := some uid } with
    | error m =>
      rw [hp] at h
      dsimp only at h
      injection h with h1 h2
      exact absurd h1 (by simp)
    | ok v =>
      rw [hp] at h
      dsimp only at h
      split_ifs at h with hval
      · cases hr : (updateFirst (fun x => x._id = id && x.user = uid) (applyUpdate upd uid now) st.todos).1 with
        | none =>
          rw [hr] at h
          dsimp only at h
          injection h with h1 h2
          exact absurd h1 (by simp)
        | some y =>
          rw [hr] at h
          dsimp only at h
          injection h with h1 h2
          have hyt : y = t := by injection h1
          obtain ⟨pre, old, post, hl, hpold, hyf, h2list⟩ := updateFirst_fst_some hr
          have hid : old._id = id ∧ old.user = uid := by
            simpa using hpold
          rw [hyt] at hyf
          refine ⟨old, pre, post, hl, hid.1, hid.2, ?_, ?_, ?_, ?_, ?_, ?_, ?_, ?_, ?_⟩
          · rw [← h2]
            dsimp only
            rw [h2list, ← hyf]
          · rw [← h2]
          · rw [hyf]
            simp [applyUpdate]
          · rw [hyf, hid.2]
            simp [applyUpdate]
          · rw [hyf]
            simp [applyUpdate]
          · rw [hyf]
            simp [applyUpdate]
          · rw [hyf]
            simp [applyUpdate]
          · rw [hyf]
            cases hd : upd.description <;> simp [applyUpdate, hd]
          · rw [hyf]
            simp [applyUpdate]
      · injection h with h1 h2
        exact absurd h1 (by simp)

/-- C8 witness: updating only the status of `u1`'s document rewrites status
and `updatedAt` and keeps id, owner, title and `createdAt`. -/
theorem update_replaces_only_supplied_witness :
    ∃ old pre post,
      storeA.todos = pre ++ old :: post ∧ old._id = 0 ∧ old.user = "u1" ∧
      ({ todos := [{ _id := 0, title := "Buy milk", description := none, status := "completed", user := "u1", createdAt := 5, updatedAt := 7 }], nextId := 1 } : Store).todos = pre ++ { _id := 0, title := "Buy milk", description := none, status := "completed", user := "u1", createdAt := 5, updatedAt := 7 } :: post ∧
      ({ todos := [{ _id := 0, title := "Buy milk", description := none, status := "completed", user := "u1", createdAt := 5, updatedAt := 7 }], nextId := 1 } : Store).nextId = storeA.nextId ∧
      ({ _id := 0, title := "Buy milk", description := none, status := "completed", user := "u1", createdAt := 5, updatedAt := 7 } : Todo)._id = old._id ∧
      ({ _id := 0, title := "Buy milk", description := none, status := "completed", user := "u1", createdAt := 5, updatedAt := 7 } : Todo).user = old.user ∧
      ({ _id := 0, title := "Buy milk", description := none, status := "completed", user := "u1", createdAt := 5, updatedAt := 7 } : Todo).createdAt = old.createdAt ∧
      ({ _id := 0, title := "Buy milk", description := none, status := "completed", user := "u1", createdAt := 5, updatedAt := 7 } : Todo).updatedAt = 7 ∧
      ({ _id := 0, title := "Buy milk", description := none, status := "completed", user := "u1", createdAt := 5, updatedAt := 7 } : Todo).title = (statusOnlyUpd.title.map jsTrim).getD old.title ∧
      ({ _id := 0, title := "Buy milk", description := none, status := "completed", user := "u1", createdAt := 5, updatedAt := 7 } : Todo).description = statusOnlyUpd.description.elim old.description (fun d => some (jsTrim d)) ∧
      ({ _id := 0, title := "Buy milk", description := none, status := "completed", user := "u1", createdAt := 5, updatedAt := 7 } : Todo).status = statusOnlyUpd.status.getD old.status :=
  update_replaces_only_supplied "u1" 0 statusOnlyUpd 7 storeA
    { _id := 0, title := "Buy milk", description := none, status := "completed", user := "u1", createdAt := 5, updatedAt := 7 }
    { todos := [{ _id := 0, title := "Buy milk", description := none, status := "completed", user := "u1", createdAt := 5, updatedAt := 7 }], nextId := 1 }
    rfl

/-- C9: creating with an empty, whitespace-only or missing title is rejected
with the 400 `Title is required` envelope; a title of 256 characters after
trimming makes the create fail; a title of 255 characters after trimming
succeeds with 201. -/
theorem create_title_length_bounds (uid : String) (now : Nat) (st : Store)
    (huid : uid ≠ "") :
    (∀ body s, body.title = some s → jsTrim s = "" →
       createTodoController (some uid) body now st =
         ({ status := 400, success := false, data := none, message := some "Title is required" }, st)) ∧
    (∀ body, body.title = none →
       createTodoController (some uid) body now st =
         ({ status := 400, success := false, data := none, message := some "Title is required" }, st)) ∧
    (∀ body s, body.title = some s → (jsTrim s).length = 256 →
       (createTodoController (some uid) body now st).1.success = false) ∧
    (∀ s, (jsTrim s).length = 255 →
       createTodoController (some uid) { title := some s, description := none, status := none, user := none, owner := none } now st =
         ({ status := 201, success := true, data := some (ctrlNewTodo uid { title := some s, description := none, status := none, user := none, owner := none } now st), message := some "Todo created successfully" },
          { todos := st.todos ++ [ctrlNewTodo uid { title := some s, description := none, status := none, user := none, owner := none } now st], nextId := st.nextId + 1 })) := by
  refine ⟨?_, ?_, ?_, ?_⟩
  · intro body s ht hts
    unfold createTodoController
    rw [ht, if_pos (by simp [Option.getD_some, hts])]
  · intro body ht
    unfold createTodoController
    rw [ht, if_pos (by simp [strFalsy])]
  · intro body s ht hlen
    unfold createTodoController
    rw [ht]
    by_cases hse : s = ""
    · rw [if_pos (by simp [strFalsy, hse])]
    · rw [if_neg (by simp [strFalsy, hse, Option.getD_some, hlen])]
      cases hc : createTodo (some uid) { title := jsTrim ((some s).getD ""), description := body.description.map jsTrim, status := some (jsOr body.status "pending"), user := none } now st with
      | ok p =>
        exfalso
        obtain ⟨t2, st2⟩ := p
        obtain ⟨-, hcon, -, -⟩ := createTodo_ok_elim hc
        have h255 : (jsTrim s).length ≤ 255 := hcon.2.1
        omega
      | error m => rfl
  · intro s hlen
    have h1 : jsTrim s ≠ "" := by
      intro he
      rw [he] at hlen
      exact absurd hlen (by decide)
    exact createController_ok rfl huid h1 (by omega) trivial rfl

/-- C9 witness: a whitespace-only title gets the 400 envelope, a
256-character title makes the create fail, and a 255-character title creates
the document with 201. -/
theorem create_title_length_bounds_witness :
    createTodoController (some "u1") { title := some "   ", description := none, status := none, user := none, owner := none } 3 emptyStore =
      ({ status := 400, success := false, data := none, message := some "Title is required" }, emptyStore) ∧
    (createTodoController (some "u1") { title := some title256, description := none, status := none, user := none, owner := none } 3 emptyStore).1.success = false ∧
    createTodoController (some "u1") { title := some title255, description := none, status := none, user := none, owner := none } 3 emptyStore =
      ({ status := 201, success := true, data := some (ctrlNewTodo "u1" { title := some title255, description := none, status := none, user := none, owner := none } 3 emptyStore), message := some "Todo created successfully" },
       { todos := emptyStore.todos ++ [ctrlNewTodo "u1" { title := some title255, description := none, status := none, user := none, owner := none } 3 emptyStore], nextId := emptyStore.nextId + 1 }) :=
  ⟨(create_title_length_bounds "u1" 3 emptyStore (by decide)).1 _ "   " rfl (by decide),
   (create_title_length_bounds "u1" 3 emptyStore (by decide)).2.2.1 _ title256 rfl (by decide),
   (create_title_length_bounds "u1" 3 emptyStore (by decide)).2.2.2 title255 (by decide)⟩

/-- C10: a create whose status is supplied but falsy (the empty string, or
the field missing entirely) succeeds and persists status `pending`: the falsy
value is replaced by the default before validation instead of being rejected. -/
theorem falsy_status_defaults_pending (uid : String) (now : Nat) (st : Store)
    (body : CreateBody) (s : String) (huid : uid ≠ "")
    (ht : body.title = some s) (h1 : jsTrim s ≠ "") (h2 : (jsTrim s).length ≤ 255)
    (h3 : match body.description with
          | none => True
          | some x => (jsTrim x).length ≤ 1000)
    (hstat : body.status = none ∨ body.status = some "") :
    ∃ todo st',
      createTodoController (some uid) body now st =
        ({ status := 201, success := true, data := some todo, message := some "Todo created successfully" }, st') ∧
      todo.status = "pending" ∧ st'.todos = st.todos ++ [todo] := by
  have hjs : jsOr body.status "pending" = "pending" := by
    rcases hstat with h | h <;> simp [jsOr, h]
  refine ⟨ctrlNewTodo uid body now st, _,
    createController_ok ht huid h1 h2 h3 (by rw [hjs]; decide), ?_, rfl⟩
  simp [ctrlNewTodo, hjs]

/-- C10 witness: status supplied as the empty string creates a pending
document. -/
theorem falsy_status_defaults_pending_witness :
    ∃ todo st',
      createTodoController (some "u1") { title := some "Buy milk", description := none, status := some "", user := none, owner := none } 4 emptyStore =
        ({ status := 201, success := true, data := some todo, message := some "Todo created successfully" }, st') ∧
      todo.status = "pending" ∧ st'.todos = emptyStore.todos ++ [todo] :=
  falsy_status_defaults_pending "u1" 4 emptyStore
    { title := some "Buy milk", description := none, status := some "", user := none, owner := none }
    "Buy milk" (by decide) rfl (by decide) (by decide) trivial (Or.inr rfl)

/-- C1 counterexample: a create from an authenticated caller whose title is
256 characters long fails validation but is answered with status 500, not the
400 the claim requires. -/
theorem create_validation_400_counterexample :
    (createTodoController (some "u1") longTitleBody 0 emptyStore).1.status = 500 ∧
    (createTodoController (some "u1") longTitleBody 0 emptyStore).1.success = false ∧
    (createTodoController (some "u1") longTitleBody 0 emptyStore).1.status ≠ 400 :=
  ⟨by decide, by decide, by decide⟩

/-- C1 (amended): an empty, whitespace-only or missing title is answered with
the 400 `{success: false, message}` envelope, but every other validation
failure (title over 255 after trimming, description over 1000 after trimming,
truthy status outside the enumeration) is answered with the failure envelope
and status 500, the store unchanged. -/
theorem create_validation_status_codes (uid : String) (body : CreateBody)
    (now : Nat) (st : Store) (huid : uid ≠ "") :
    (∀ s, body.title = some s → jsTrim s = "" →
       createTodoController (some uid) body now st =
         ({ status := 400, success := false, data := none, message := some "Title is required" }, st)) ∧
    (body.title = none →
       createTodoController (some uid) body now st =
         ({ status := 400, success := false, data := none, message := some "Title is required" }, st)) ∧
    (∀ s, body.title = some s → (jsTrim s).length ≠ 0 →
       (255 < (jsTrim s).length ∨
        (∃ d, body.description = some d ∧ 1000 < (jsTrim d).length) ∨
        validStatus (jsOr body.status "pending") = false) →
       (createTodoController (some uid) body now st).1.status = 500 ∧
       (createTodoController (some uid) body now st).1.success = false ∧
       (createTodoController (some uid) body now st).2 = st) := by
  refine ⟨?_, ?_, ?_⟩
  · intro s ht hts
    unfold createTodoController
    rw [ht, if_pos (by simp [Option.getD_some, hts])]
  · intro ht
    unfold createTodoController
    rw [ht, if_pos (by simp [strFalsy])]
  · intro s ht hlen hviol
    have hse : s ≠ "" := by
      intro he
      rw [he] at hlen
      exact hlen (by decide)
    unfold createTodoController
    rw [ht, if_neg (by simp [strFalsy, hse, Option.getD_some, hlen])]
    cases hc : createTodo (some uid) { title := jsTrim ((some s).getD ""), description := body.description.map jsTrim, status := some (jsOr body.status "pending"), user := none } now st with
    | ok p =>
      exfalso
      obtain ⟨t2, st2⟩ := p
      obtain ⟨-, hcon, -, -⟩ := createTodo_ok_elim hc
      rcases hviol with hv | ⟨d, hd, hv⟩ | hv
      · have h255 : (jsTrim s).length ≤ 255 := hcon.2.1
        omega
      · have h3 : match body.description.map jsTrim with
            | none => True
            | some x => x.length ≤ 1000 := hcon.2.2.1
        rw [hd] at h3
        simp only [Option.map_some'] at h3
        have h4 : (jsTrim d).length ≤ 1000 := h3
        omega
      · have hvs : validStatus (jsOr (some (jsOr body.status "pending")) "pending") = true := hcon.2.2.2.1
        rw [jsOr_self_pending] at hvs
        simp [hvs] at hv
    | error m => exact ⟨rfl, rfl, rfl⟩

/-- C1 amended witness: the 256-character title is answered with 500 and the
store is unchanged. -/
theorem create_validation_status_codes_witness :
    (createTodoController (some "u1") longTitleBody 0 emptyStore).1.status = 500 ∧
    (createTodoController (some "u1") longTitleBody 0 emptyStore).1.success = false ∧
    (createTodoController (some "u1") longTitleBody 0 emptyStore).2 = emptyStore :=
  (create_validation_status_codes "u1" longTitleBody 0 emptyStore (by decide)).2.2
    (String.mk (List.replicate 256 'a')) rfl (by decide) (Or.inl (by decide))

end TodoApp
